import Mathlib

/-!
Verification of the fast_align bitext-alignment pipeline
(`src/pipelines/aligners/fast_align_pipeline.py`).

Shallow embedding conventions:
* Python strings are modelled as `List Char`; `str.strip()`, `str.split()`,
  `str.split('-')` and `int(...)` are re-implemented as structural recursions
  (`pyStrip`, `pySplitWs`, `List.splitOn`, `pyToNat?`) so that every
  definition evaluates inside the kernel.  `int(...)` is modelled for the
  non-negative decimal numerals that the aligner's output grammar
  (`<nonneg-int>-<nonneg-int>`) produces.
* Python `float` arithmetic is idealised as exact rational arithmetic over
  `ℚ`; `round(x, 4)` becomes round-half-up to a multiple of `1/10000`
  (`round4`).  No claim in scope depends on binary-float rounding ties.
* Exceptions are modelled with `Option`/`Except`: a `none`/`.error` result
  corresponds to a raised Python exception, a `some`/`.ok` result to a
  normal return.
* External effects (the fast_align subprocess, the database, the run
  tracker) are modelled as oracles: each batch of `run_pipeline` carries the
  subprocess outcome and output-file content for both directions, and the
  per-pair database insertion outcome is an oracle `SentencePair → Bool`.
  The orchestrator's observable effects are recorded as an event trace
  (record insertions, tracker progress updates, run completion).
-/

namespace FastAlign

/-- Python `str.strip()`: drop leading and trailing whitespace. -/
def pyStrip (s : List Char) : List Char :=
  ((s.dropWhile Char.isWhitespace).reverse.dropWhile Char.isWhitespace).reverse

/-- Python `str.split()` with no argument: split on whitespace runs,
producing no empty tokens. -/
def pySplitWs (s : List Char) : List (List Char) :=
  (s.splitOnP Char.isWhitespace).filter (fun t => t ≠ [])

/-- Python `int(...)` restricted to the aligner grammar's non-negative
decimal numerals: any other component is a `ValueError`, i.e. `none`. -/
def pyToNat? (s : List Char) : Option Nat :=
  if s ≠ [] ∧ s.all Char.isDigit then
    some (s.foldl (fun n c => n * 10 + (c.toNat - '0'.toNat)) 0)
  else none

/-- One alignment token: `src, tgt = pair.split('-')` followed by
`int(src), int(tgt)` (`parse_alignment_output`, lines 144-146).  A token
without exactly one `-` is a `ValueError` from tuple unpacking; a
non-numeric component is a `ValueError` from `int`. -/
def parse_token (t : List Char) : Option (Nat × Nat) :=
  match t.splitOn '-' with
  | [a, b] =>
    match pyToNat? a, pyToNat? b with
    | some src, some tgt => some (src, tgt)
    | _, _ => none
  | _ => none

/-- The inner token loop of `parse_alignment_output`: the first malformed
token raises, aborting the whole parse. -/
def parse_tokens : List (List Char) → Option (List (Nat × Nat))
  | [] => some []
  | t :: ts =>
    match parse_token t, parse_tokens ts with
    | some p, some ps => some (p :: ps)
    | _, _ => none

/-- One line of `parse_alignment_output`: `line.strip()`, the blank-line
check (`if not line: alignments.append([])`), then the token loop. -/
def parse_line (line : List Char) : Option (List (Nat × Nat)) :=
  let l := pyStrip line
  if l = [] then some []
  else parse_tokens (pySplitWs l)

/-- `FastAlignPipeline.parse_alignment_output` (lines 117-150), over the
list of lines of the alignment output file.  An uncaught `ValueError` from
any line makes the whole call raise (`none`). -/
def parse_alignment_output : List (List Char) → Option (List (List (Nat × Nat)))
  | [] => some []
  | line :: rest =>
    match parse_line line, parse_alignment_output rest with
    | some p, some ps => some (p :: ps)
    | _, _ => none

/-- Python `round(x, 4)` idealised over `ℚ` as round-half-up to a multiple
of `1/10000`. -/
def round4 (q : ℚ) : ℚ := (⌊q * 10000 + 1/2⌋ : ℚ) / 10000

/-- The `coverage` local of `calculate_alignment_score` (lines 177-179):
`len(set(a[0] for a in alignments)) / src_length`. -/
def coverage (alignments : List (Nat × Nat)) (src_length : Nat) : ℚ :=
  (((alignments.map Prod.fst).dedup.length : ℚ)) / (src_length : ℚ)

/-- The `density_score` local of `calculate_alignment_score`
(lines 181-183): `min(len(alignments) / src_length, 2.0) / 2.0`. -/
def density_score (alignments : List (Nat × Nat)) (src_length : Nat) : ℚ :=
  min ((alignments.length : ℚ) / (src_length : ℚ)) 2 / 2

/-- The `length_ratio` local of `calculate_alignment_score` (line 186). -/
def length_ratio (src_length tgt_length : Nat) : ℚ :=
  ((min src_length tgt_length : Nat) : ℚ) / ((max src_length tgt_length : Nat) : ℚ)

/-- `FastAlignPipeline.calculate_alignment_score` (lines 152-191). -/
def calculate_alignment_score
    (alignments : List (Nat × Nat)) (src_length tgt_length : Nat) : ℚ :=
  if alignments = [] ∨ src_length = 0 ∨ tgt_length = 0 then 0
  else
    round4 (1/2 * coverage alignments src_length
      + 3/10 * density_score alignments src_length
      + 1/5 * length_ratio src_length tgt_length)

/-- One row of `get_unaligned_sentence_pairs`: the identifiers and raw
texts consumed by `store_alignments`. -/
structure SentencePair where
  purepecha_sentence_id : Nat
  spanish_sentence_id : Nat
  purepecha_text : List Char
  spanish_text : List Char
deriving DecidableEq

/-- One entry of the `forward` JSONB payload (lines 232-236). -/
structure ForwardEntry where
  src_idx : Nat
  tgt_idx : Nat
  src_token : List Char
  tgt_token : List Char
deriving DecidableEq

/-- One entry of the `backward` JSONB payload (lines 237-240). -/
structure BackwardEntry where
  src_idx : Nat
  tgt_idx : Nat
deriving DecidableEq

/-- The `word_alignments` JSONB payload (lines 231-241). -/
structure WordAlignments where
  forward : List ForwardEntry
  backward : List BackwardEntry
deriving DecidableEq

/-- The row passed to `db.insert_alignment` (lines 247-254). -/
structure AlignmentRecord where
  purepecha_sentence_id : Nat
  spanish_sentence_id : Nat
  alignment_method : List Char
  alignment_score : ℚ
  word_alignments : WordAlignments
  quality_status : List Char
deriving DecidableEq

/-- The per-pair body of `store_alignments` (lines 220-254): whitespace
tokenization, scoring of the full (unfiltered) forward alignment, the
range-filtered forward payload, the swapped backward payload, and the
quality label with its fixed `0.7` threshold (line 244). -/
def mk_alignment_record
    (pair : SentencePair) (fwd_align bwd_align : List (Nat × Nat)) : AlignmentRecord :=
  let src_tokens := pySplitWs pair.purepecha_text
  let tgt_tokens := pySplitWs pair.spanish_text
  let score := calculate_alignment_score fwd_align src_tokens.length tgt_tokens.length
  { purepecha_sentence_id := pair.purepecha_sentence_id
    spanish_sentence_id := pair.spanish_sentence_id
    alignment_method := "fast_align".toList
    alignment_score := score
    word_alignments :=
      { forward :=
          (fwd_align.filter
            (fun q => decide (q.1 < src_tokens.length) && decide (q.2 < tgt_tokens.length))).map
            (fun q =>
              { src_idx := q.1, tgt_idx := q.2,
                src_token := src_tokens.getD q.1 [],
                tgt_token := tgt_tokens.getD q.2 [] })
        backward := bwd_align.map (fun q => { src_idx := q.2, tgt_idx := q.1 }) }
    quality_status :=
      if (7 : ℚ)/10 ≤ score then "auto_aligned".toList else "raw".toList }

/-- `FastAlignPipeline.store_alignments` (lines 193-263).  `insertOk`
models whether `db.insert_alignment` succeeds for a pair (its failure is
the caught per-pair exception of lines 258-260).  Returns the inserted
records in order together with the `(successful, failed)` counters; the
`zip` of line 217 truncates to the shortest of the three lists. -/
def store_alignments (insertOk : SentencePair → Bool) :
    List SentencePair → List (List (Nat × Nat)) → List (List (Nat × Nat)) →
    List AlignmentRecord × Nat × Nat
  | pair :: ps, f :: fs, b :: bs =>
    let r := mk_alignment_record pair f b
    let rest := store_alignments insertOk ps fs bs
    if insertOk pair then (r :: rest.1, rest.2.1 + 1, rest.2.2)
    else (rest.1, rest.2.1, rest.2.2 + 1)
  | _, _, _ => ([], 0, 0)

/-- Outcome of the `subprocess.run` call inside `run_fast_align`: either
the process ran and exited with a code (stderr captured), or the launch
itself failed because the binary was not found. -/
inductive ProcOutcome where
  | exited (code : Nat) (stderr : List Char)
  | notFound
deriving DecidableEq

/-- A Python exception escaping a modelled function. -/
inductive PyError where
  | fileNotFoundError
deriving DecidableEq

/-- Normal return value of `run_fast_align`: the boolean result plus the
stderr text logged on failure (line 114). -/
structure InvokeResult where
  success : Bool
  logged_stderr : Option (List Char)
deriving DecidableEq

/-- `FastAlignPipeline.run_fast_align` (lines 76-115).  `check=True` makes
a non-zero exit raise `CalledProcessError`, which the `except` clause
catches (logging the captured stderr) and turns into `False`; a
`FileNotFoundError` from launching a missing binary matches no `except`
clause and propagates. -/
def run_fast_align (outcome : ProcOutcome) : Except PyError InvokeResult :=
  match outcome with
  | ProcOutcome.exited 0 _ => Except.ok { success := true, logged_stderr := none }
  | ProcOutcome.exited (_ + 1) e => Except.ok { success := false, logged_stderr := some e }
  | ProcOutcome.notFound => Except.error PyError.fileNotFoundError

/-- The external behaviour observed by one iteration of the batch loop:
the fetched pairs, the subprocess outcome of each direction, and the
content (as lines) of each direction's output file. -/
structure BatchInput where
  pairs : List SentencePair
  fwdProc : ProcOutcome
  fwdLines : List (List Char)
  bwdProc : ProcOutcome
  bwdLines : List (List Char)

/-- Observable effects of `run_pipeline` in order: a record insertion, a
`tracker.update_progress` call with its cumulative totals, and the final
`tracker.complete_run` with its status string. -/
inductive Event where
  | insert (r : AlignmentRecord)
  | progress (items_processed items_succeeded items_failed : Nat)
  | complete (status : List Char)

/-- Final state of one `run_pipeline` execution: the loop counters, the
event trace, and whether an uncaught exception escaped the loop (in which
case `complete_run` was never reached). -/
structure RunResult where
  batch_num : Nat
  total_aligned : Nat
  total_failed : Nat
  trace : List Event
  raised : Bool

/-- The loop guard `if max_batches and batch_num >= max_batches` of line
302: Python's truthiness makes `max_batches = 0` behave like `None`. -/
def maxReached (mb : Option Nat) (bn : Nat) : Bool :=
  match mb with
  | none => false
  | some m => decide (m ≠ 0) && decide (m ≤ bn)

/-- The `while True` loop of `run_pipeline` (lines 300-361), one list
element per `get_unaligned_sentence_pairs` fetch (the list running out
models storage exhaustion, i.e. the next fetch returning `[]`).
Arguments after the batch list: `batch_num`, `total_aligned`,
`total_failed`, and the event trace accumulated so far. -/
def run_loop (insertOk : SentencePair → Bool) (mb : Option Nat) :
    List BatchInput → Nat → Nat → Nat → List Event → RunResult
  | [], bn, ta, tf, tr =>
    if maxReached mb bn then ⟨bn, ta, tf, tr, false⟩
    else ⟨bn + 1, ta, tf, tr, false⟩
  | b :: rest, bn, ta, tf, tr =>
    if maxReached mb bn then ⟨bn, ta, tf, tr, false⟩
    else if b.pairs = [] then ⟨bn + 1, ta, tf, tr, false⟩
    else
      match run_fast_align b.fwdProc with
      | Except.error _ => ⟨bn + 1, ta, tf, tr, true⟩
      | Except.ok fr =>
        if fr.success = false then
          run_loop insertOk mb rest (bn + 1) ta (tf + b.pairs.length) tr
        else
          match run_fast_align b.bwdProc with
          | Except.error _ => ⟨bn + 1, ta, tf, tr, true⟩
          | Except.ok br =>
            if br.success = false then
              run_loop insertOk mb rest (bn + 1) ta (tf + b.pairs.length) tr
            else
              match parse_alignment_output b.fwdLines with
              | none => ⟨bn + 1, ta, tf, tr, true⟩
              | some fa =>
                match parse_alignment_output b.bwdLines with
                | none => ⟨bn + 1, ta, tf, tr, true⟩
                | some ba =>
                  let s := store_alignments insertOk b.pairs fa ba
                  run_loop insertOk mb rest (bn + 1) (ta + s.2.1) (tf + s.2.2)
                    (tr ++ s.1.map Event.insert ++
                      [Event.progress (ta + s.2.1 + (tf + s.2.2)) (ta + s.2.1) (tf + s.2.2)])

/-- The external behaviour driving one whole `run_pipeline` call. -/
structure PipelineEnv where
  batches : List BatchInput
  insertOk : SentencePair → Bool
  max_batches : Option Nat

/-- `FastAlignPipeline.run_pipeline` (lines 265-371): run the batch loop
from zeroed counters; if no exception escaped, `tracker.complete_run
(status='completed')` (line 364) is the final event. -/
def run_pipeline (env : PipelineEnv) : RunResult :=
  let r := run_loop env.insertOk env.max_batches env.batches 0 0 0 []
  if r.raised then r
  else { r with trace := r.trace ++ [Event.complete "completed".toList] }

/-- Number of record insertions in a trace. -/
def insertCount : List Event → Nat
  | [] => 0
  | Event.insert _ :: tr => insertCount tr + 1
  | _ :: tr => insertCount tr

/-- Number of tracker progress updates in a trace. -/
def progressCount : List Event → Nat
  | [] => 0
  | Event.progress _ _ _ :: tr => progressCount tr + 1
  | _ :: tr => progressCount tr

/-- Helper scanning a trace left to right for the latest recorded
`items_succeeded`. -/
def lastSuccAux : List Event → Nat → Nat
  | [], acc => acc
  | Event.progress _ s _ :: tr, _ => lastSuccAux tr s
  | _ :: tr, acc => lastSuccAux tr acc

/-- The `items_succeeded` value most recently recorded by the Run Tracker
at the end of a trace (`0` before any progress update). -/
def lastSucc (tr : List Event) : Nat := lastSuccAux tr 0

/-- Claim C9 as stated: at every point of the run (every trace position),
the records inserted so far never exceed the last tracker-recorded
`items_succeeded`. -/
def trackerMonotone (tr : List Event) : Prop :=
  ∀ n, insertCount (tr.take n) ≤ lastSucc (tr.take n)

/-- Helper: check every progress event against the running insertion
count `k` carried from the left. -/
def progOKAux : List Event → Nat → Bool
  | [], _ => true
  | Event.insert _ :: tr, k => progOKAux tr (k + 1)
  | Event.progress p s f :: tr, k => (decide (s = k) && decide (p = s + f)) && progOKAux tr k
  | Event.complete _ :: tr, k => progOKAux tr k

/-- Each tracker progress update records `items_succeeded` equal to the
number of records inserted so far, and `items_processed` equal to
succeeded plus failed. -/
def progressConsistent (tr : List Event) : Prop := progOKAux tr 0 = true

/-- Concrete sentence pair with empty texts, used by concrete scenarios. -/
def pair0 : SentencePair := ⟨1, 2, [], []⟩

/-- Concrete environment: a single batch whose forward invocation exits
non-zero, so the batch is skipped; the following fetch is empty. -/
def env_c5 : PipelineEnv :=
  { batches := [⟨[pair0], ProcOutcome.exited 1 "boom".toList, [],
      ProcOutcome.exited 0 [], []⟩],
    insertOk := fun _ => true, max_batches := none }

/-- Concrete environment: batch 1's forward output holds the malformed
token `x`; a second, well-formed batch follows. -/
def env_c6 : PipelineEnv :=
  { batches := [⟨[pair0], ProcOutcome.exited 0 [], ["x".toList],
      ProcOutcome.exited 0 [], ["".toList]⟩,
      ⟨[pair0], ProcOutcome.exited 0 [], ["".toList],
        ProcOutcome.exited 0 [], ["".toList]⟩],
    insertOk := fun _ => true, max_batches := none }

/-- Concrete environment: one batch of one pair where both directions
succeed with blank output, and the insertion succeeds. -/
def env_c9 : PipelineEnv :=
  { batches := [⟨[pair0], ProcOutcome.exited 0 [], ["".toList],
      ProcOutcome.exited 0 [], ["".toList]⟩],
    insertOk := fun _ => true, max_batches := none }

/-! ## Helper lemmas -/

lemma parse_alignment_output_length :
    ∀ (lines : List (List Char)) (out : List (List (Nat × Nat))),
      parse_alignment_output lines = some out → out.length = lines.length := by
  intro lines
  induction lines with
  | nil => intro out h; simp only [parse_alignment_output, Option.some.injEq] at h; simp [← h]
  | cons l ls ih =>
    intro out h
    simp only [parse_alignment_output] at h
    cases hl : parse_line l with
    | none => rw [hl] at h; exact absurd h (by simp)
    | some p =>
      cases hrest : parse_alignment_output ls with
      | none => rw [hl, hrest] at h; exact absurd h (by simp)
      | some ps =>
        rw [hl, hrest] at h
        simp only [Option.some.injEq] at h
        subst h
        simp [ih ps hrest]

lemma parse_alignment_output_get :
    ∀ (lines : List (List Char)) (out : List (List (Nat × Nat))),
      parse_alignment_output lines = some out →
      ∀ (i : Nat) (h1 : i < lines.length) (h2 : i < out.length),
        parse_line (lines.get ⟨i, h1⟩) = some (out.get ⟨i, h2⟩) := by
  intro lines
  induction lines with
  | nil => intro out _ i h1; exact absurd h1 (by simp)
  | cons l ls ih =>
    intro out h i h1 h2
    simp only [parse_alignment_output] at h
    cases hl : parse_line l with
    | none => rw [hl] at h; exact absurd h (by simp)
    | some p =>
      cases hrest : parse_alignment_output ls with
      | none => rw [hl, hrest] at h; exact absurd h (by simp)
      | some ps =>
        rw [hl, hrest] at h
        simp only [Option.some.injEq] at h
        subst h
        cases i with
        | zero => simpa using hl
        | succ j => exact ih ps hrest j (by simpa using h1) (by simpa using h2)

lemma parse_line_of_whitespace (line : List Char)
    (h : line.all Char.isWhitespace = true) : parse_line line = some [] := by
  have hstrip : pyStrip line = [] := by
    have h1 : line.dropWhile Char.isWhitespace = [] := by
      rw [List.dropWhile_eq_nil_iff]
      intro x hx
      exact List.all_eq_true.mp h x hx
    simp [pyStrip, h1]
  simp [parse_line, hstrip]

lemma parse_alignment_output_of_bad_line :
    ∀ (lines : List (List Char)) (line : List Char), line ∈ lines →
      parse_line line = none → parse_alignment_output lines = none := by
  intro lines
  induction lines with
  | nil => intro line h; exact absurd h (by simp)
  | cons l ls ih =>
    intro line hmem hbad
    rcases List.mem_cons.mp hmem with h | h
    · subst h; simp [parse_alignment_output, hbad]
    · simp only [parse_alignment_output, ih line h hbad]
      cases parse_line l <;> rfl

lemma round4_nonneg {q : ℚ} (h : 0 ≤ q) : 0 ≤ round4 q := by
  unfold round4
  apply div_nonneg _ (by norm_num)
  have h0 : (0 : ℤ) ≤ ⌊q * 10000 + 1/2⌋ := Int.floor_nonneg.mpr (by positivity)
  exact_mod_cast h0

lemma round4_le_one {q : ℚ} (h : q ≤ 1) : round4 q ≤ 1 := by
  unfold round4
  rw [div_le_one (by norm_num)]
  have h1 : ⌊q * 10000 + 1/2⌋ ≤ (10000 : ℤ) := by
    rw [Int.floor_le_iff]
    push_cast
    linarith
  exact_mod_cast h1

lemma dedup_length_le (l : List Nat) (s : Nat) (h : ∀ x ∈ l, x < s) :
    l.dedup.length ≤ s := by
  have hn : l.dedup.Nodup := List.nodup_dedup l
  have hsub : l.dedup.toFinset ⊆ Finset.range s := by
    intro x hx
    rw [List.mem_toFinset, List.mem_dedup] at hx
    exact Finset.mem_range.mpr (h x hx)
  calc l.dedup.length = l.dedup.toFinset.card := (List.toFinset_card_of_nodup hn).symm
    _ ≤ (Finset.range s).card := Finset.card_le_card hsub
    _ = s := Finset.card_range s

lemma coverage_nonneg (a : List (Nat × Nat)) (s : Nat) : 0 ≤ coverage a s := by
  unfold coverage; positivity

lemma coverage_le_one (a : List (Nat × Nat)) (s : Nat) (hs : s ≠ 0)
    (h : ∀ q ∈ a, q.1 < s) : coverage a s ≤ 1 := by
  unfold coverage
  rw [div_le_one (by exact_mod_cast Nat.pos_of_ne_zero hs)]
  have hb : ((a.map Prod.fst).dedup.length : ℚ) ≤ (s : ℚ) := by
    have := dedup_length_le (a.map Prod.fst) s (by
      intro x hx
      rcases List.mem_map.mp hx with ⟨q, hq, hqe⟩
      exact hqe ▸ h q hq)
    exact_mod_cast this
  exact hb

lemma density_score_nonneg (a : List (Nat × Nat)) (s : Nat) :
    0 ≤ density_score a s := by
  unfold density_score
  apply div_nonneg _ (by norm_num)
  exact le_min (by positivity) (by norm_num)

lemma density_score_le_one (a : List (Nat × Nat)) (s : Nat) :
    density_score a s ≤ 1 := by
  unfold density_score
  rw [div_le_one (by norm_num)]
  exact min_le_right _ _

lemma length_ratio_nonneg (s t : Nat) : 0 ≤ length_ratio s t := by
  unfold length_ratio; positivity

lemma length_ratio_le_one (s t : Nat) (hs : s ≠ 0) : length_ratio s t ≤ 1 := by
  unfold length_ratio
  rw [div_le_one]
  · exact_mod_cast Nat.cast_le.mpr (min_le_max (a := s) (b := t))
  · have : 0 < max s t := lt_of_lt_of_le (Nat.pos_of_ne_zero hs) (le_max_left s t)
    exact_mod_cast this

lemma maxReached_zero (mb : Option Nat) : maxReached mb 0 = false := by
  cases mb with
  | none => rfl
  | some m =>
    simp only [maxReached, Bool.and_eq_false_imp, decide_eq_true_eq, decide_eq_false_iff_not]
    omega

lemma store_alignments_length (ins : SentencePair → Bool) :
    ∀ (ps : List SentencePair) (fs bs : List (List (Nat × Nat))),
      (store_alignments ins ps fs bs).1.length = (store_alignments ins ps fs bs).2.1 := by
  intro ps
  induction ps with
  | nil => intro fs bs; simp [store_alignments]
  | cons p ps ih =>
    intro fs bs
    cases fs with
    | nil => simp [store_alignments]
    | cons f fs =>
      cases bs with
      | nil => simp [store_alignments]
      | cons b bs =>
        simp only [store_alignments]
        by_cases hp : ins p = true
        · simp [hp, ih fs bs]
        · simp [Bool.eq_false_iff.mpr hp, ih fs bs]

lemma insertCount_append (a b : List Event) :
    insertCount (a ++ b) = insertCount a + insertCount b := by
  induction a with
  | nil => simp [insertCount]
  | cons e a ih =>
    cases e <;> simp [insertCount, ih] <;> omega

lemma insertCount_map_insert (recs : List AlignmentRecord) :
    insertCount (recs.map Event.insert) = recs.length := by
  induction recs with
  | nil => rfl
  | cons r recs ih => simp [insertCount, ih]

lemma progOKAux_append (a b : List Event) :
    ∀ k, progOKAux (a ++ b) k = (progOKAux a k && progOKAux b (k + insertCount a)) := by
  induction a with
  | nil => intro k; simp [progOKAux, insertCount]
  | cons e a ih =>
    intro k
    cases e with
    | insert r =>
      rw [List.cons_append]
      simp only [progOKAux, insertCount, ih]
      have h2 : k + 1 + insertCount a = k + (insertCount a + 1) := by omega
      rw [h2]
    | progress p s f =>
      rw [List.cons_append]
      simp only [progOKAux, insertCount, ih, Bool.and_assoc]
    | complete s =>
      rw [List.cons_append]
      simp only [progOKAux, insertCount, ih]

lemma progOKAux_map_insert (recs : List AlignmentRecord) :
    ∀ k, progOKAux (recs.map Event.insert) k = true := by
  induction recs with
  | nil => intro k; rfl
  | cons r recs ih => intro k; simp [progOKAux, ih]

lemma run_loop_fwd_fail (ins : SentencePair → Bool) (mb : Option Nat)
    (b : BatchInput) (rest : List BatchInput) (bn ta tf : Nat) (tr : List Event)
    (hmax : maxReached mb bn = false) (hp : b.pairs ≠ [])
    (e : Option (List Char))
    (hf : run_fast_align b.fwdProc = Except.ok ⟨false, e⟩) :
    run_loop ins mb (b :: rest) bn ta tf tr =
      run_loop ins mb rest (bn + 1) ta (tf + b.pairs.length) tr := by
  simp [run_loop, hmax, hp, hf]

lemma run_loop_bwd_fail (ins : SentencePair → Bool) (mb : Option Nat)
    (b : BatchInput) (rest : List BatchInput) (bn ta tf : Nat) (tr : List Event)
    (hmax : maxReached mb bn = false) (hp : b.pairs ≠ [])
    (hf : run_fast_align b.fwdProc = Except.ok ⟨true, none⟩)
    (e : Option (List Char))
    (hb : run_fast_align b.bwdProc = Except.ok ⟨false, e⟩) :
    run_loop ins mb (b :: rest) bn ta tf tr =
      run_loop ins mb rest (bn + 1) ta (tf + b.pairs.length) tr := by
  simp [run_loop, hmax, hp, hf, hb]

lemma run_loop_parse_fwd_fail (ins : SentencePair → Bool) (mb : Option Nat)
    (b : BatchInput) (rest : List BatchInput) (bn ta tf : Nat) (tr : List Event)
    (hmax : maxReached mb bn = false) (hp : b.pairs ≠ [])
    (hf : run_fast_align b.fwdProc = Except.ok ⟨true, none⟩)
    (hb : run_fast_align b.bwdProc = Except.ok ⟨true, none⟩)
    (hfa : parse_alignment_output b.fwdLines = none) :
    run_loop ins mb (b :: rest) bn ta tf tr = ⟨bn + 1, ta, tf, tr, true⟩ := by
  simp [run_loop, hmax, hp, hf, hb, hfa]

lemma run_loop_parse_bwd_fail (ins : SentencePair → Bool) (mb : Option Nat)
    (b : BatchInput) (rest : List BatchInput) (bn ta tf : Nat) (tr : List Event)
    (fa : List (List (Nat × Nat)))
    (hmax : maxReached mb bn = false) (hp : b.pairs ≠ [])
    (hf : run_fast_align b.fwdProc = Except.ok ⟨true, none⟩)
    (hb : run_fast_align b.bwdProc = Except.ok ⟨true, none⟩)
    (hfa : parse_alignment_output b.fwdLines = some fa)
    (hba : parse_alignment_output b.bwdLines = none) :
    run_loop ins mb (b :: rest) bn ta tf tr = ⟨bn + 1, ta, tf, tr, true⟩ := by
  simp [run_loop, hmax, hp, hf, hb, hfa, hba]

lemma run_loop_success (ins : SentencePair → Bool) (mb : Option Nat)
    (b : BatchInput) (rest : List BatchInput) (bn ta tf : Nat) (tr : List Event)
    (fa ba : List (List (Nat × Nat)))
    (hmax : maxReached mb bn = false) (hp : b.pairs ≠ [])
    (hf : run_fast_align b.fwdProc = Except.ok ⟨true, none⟩)
    (hb : run_fast_align b.bwdProc = Except.ok ⟨true, none⟩)
    (hfa : parse_alignment_output b.fwdLines = some fa)
    (hba : parse_alignment_output b.bwdLines = some ba) :
    run_loop ins mb (b :: rest) bn ta tf tr =
      run_loop ins mb rest (bn + 1)
        (ta + (store_alignments ins b.pairs fa ba).2.1)
        (tf + (store_alignments ins b.pairs fa ba).2.2)
        (tr ++ (store_alignments ins b.pairs fa ba).1.map Event.insert ++
          [Event.progress
            (ta + (store_alignments ins b.pairs fa ba).2.1 +
              (tf + (store_alignments ins b.pairs fa ba).2.2))
            (ta + (store_alignments ins b.pairs fa ba).2.1)
            (tf + (store_alignments ins b.pairs fa ba).2.2)]) := by
  simp [run_loop, hmax, hp, hf, hb, hfa, hba]

lemma run_loop_cases (ins : SentencePair → Bool) (mb : Option Nat)
    (b : BatchInput) (rest : List BatchInput) (bn ta tf : Nat) (tr : List Event) :
    run_loop ins mb (b :: rest) bn ta tf tr = ⟨bn, ta, tf, tr, false⟩ ∨
    run_loop ins mb (b :: rest) bn ta tf tr = ⟨bn + 1, ta, tf, tr, false⟩ ∨
    run_loop ins mb (b :: rest) bn ta tf tr = ⟨bn + 1, ta, tf, tr, true⟩ ∨
    run_loop ins mb (b :: rest) bn ta tf tr =
      run_loop ins mb rest (bn + 1) ta (tf + b.pairs.length) tr ∨
    (∃ fa ba,
      parse_alignment_output b.fwdLines = some fa ∧
      parse_alignment_output b.bwdLines = some ba ∧
      run_loop ins mb (b :: rest) bn ta tf tr =
        run_loop ins mb rest (bn + 1)
          (ta + (store_alignments ins b.pairs fa ba).2.1)
          (tf + (store_alignments ins b.pairs fa ba).2.2)
          (tr ++ (store_alignments ins b.pairs fa ba).1.map Event.insert ++
            [Event.progress
              (ta + (store_alignments ins b.pairs fa ba).2.1 +
                (tf + (store_alignments ins b.pairs fa ba).2.2))
              (ta + (store_alignments ins b.pairs fa ba).2.1)
              (tf + (store_alignments ins b.pairs fa ba).2.2)])) := by
  by_cases hmax : maxReached mb bn = true
  · left; simp [run_loop, hmax]
  · rw [Bool.not_eq_true] at hmax
    by_cases hp : b.pairs = []
    · right; left; simp [run_loop, hmax, hp]
    · cases hfp : b.fwdProc with
      | notFound =>
        right; right; left
        simp [run_loop, hmax, hp, hfp, run_fast_align]
      | exited c e =>
        cases c with
        | succ c =>
          right; right; right; left
          exact run_loop_fwd_fail ins mb b rest bn ta tf tr hmax hp (some e)
            (by rw [hfp]; rfl)
        | zero =>
          have hf : run_fast_align b.fwdProc = Except.ok ⟨true, none⟩ := by
            rw [hfp]; rfl
          cases hbp : b.bwdProc with
          | notFound =>
            right; right; left
            simp [run_loop, hmax, hp, hfp, hbp, run_fast_align]
          | exited c2 e2 =>
            cases c2 with
            | succ c2 =>
              right; right; right; left
              exact run_loop_bwd_fail ins mb b rest bn ta tf tr hmax hp hf (some e2)
                (by rw [hbp]; rfl)
            | zero =>
              have hb : run_fast_align b.bwdProc = Except.ok ⟨true, none⟩ := by
                rw [hbp]; rfl
              cases hfa : parse_alignment_output b.fwdLines with
              | none =>
                right; right; left
                exact run_loop_parse_fwd_fail ins mb b rest bn ta tf tr hmax hp hf hb hfa
              | some fa =>
                cases hba : parse_alignment_output b.bwdLines with
                | none =>
                  right; right; left
                  exact run_loop_parse_bwd_fail ins mb b rest bn ta tf tr fa hmax hp hf hb hfa hba
                | some ba =>
                  right; right; right; right
                  exact ⟨fa, ba, rfl, rfl,
                    run_loop_success ins mb b rest bn ta tf tr fa ba hmax hp hf hb hfa hba⟩

lemma run_loop_trace_invariant (ins : SentencePair → Bool) (mb : Option Nat) :
    ∀ (bs : List BatchInput) (bn ta tf : Nat) (tr : List Event),
      insertCount tr = ta → progOKAux tr 0 = true →
      insertCount (run_loop ins mb bs bn ta tf tr).trace =
          (run_loop ins mb bs bn ta tf tr).total_aligned ∧
        progOKAux (run_loop ins mb bs bn ta tf tr).trace 0 = true := by
  intro bs
  induction bs with
  | nil =>
    intro bn ta tf tr h1 h2
    by_cases hmax : maxReached mb bn = true <;> simp [run_loop, hmax, h1, h2]
  | cons b rest ih =>
    intro bn ta tf tr h1 h2
    rcases run_loop_cases ins mb b rest bn ta tf tr with
      hc | hc | hc | hc | ⟨fa, ba, _, _, hc⟩
    · rw [hc]; exact ⟨h1, h2⟩
    · rw [hc]; exact ⟨h1, h2⟩
    · rw [hc]; exact ⟨h1, h2⟩
    · rw [hc]; exact ih (bn + 1) ta (tf + b.pairs.length) tr h1 h2
    · rw [hc]
      apply ih
      · rw [insertCount_append, insertCount_append, insertCount_map_insert,
          store_alignments_length, h1]
        simp [insertCount]
      · rw [progOKAux_append, progOKAux_append]
        rw [h2, progOKAux_map_insert]
        simp only [Bool.true_and]
        rw [insertCount_append, insertCount_map_insert, store_alignments_length, h1]
        simp [progOKAux, insertCount]

lemma run_loop_complete_mem (ins : SentencePair → Bool) (mb : Option Nat) :
    ∀ (bs : List BatchInput) (bn ta tf : Nat) (tr : List Event) (s : List Char),
      Event.complete s ∈ (run_loop ins mb bs bn ta tf tr).trace →
      Event.complete s ∈ tr := by
  intro bs
  induction bs with
  | nil =>
    intro bn ta tf tr s h
    by_cases hmax : maxReached mb bn = true <;> simpa [run_loop, hmax] using h
  | cons b rest ih =>
    intro bn ta tf tr s h
    rcases run_loop_cases ins mb b rest bn ta tf tr with
      hc | hc | hc | hc | ⟨fa, ba, _, _, hc⟩
    · rwa [hc] at h
    · rwa [hc] at h
    · rwa [hc] at h
    · rw [hc] at h; exact ih _ _ _ _ _ h
    · rw [hc] at h
      have h2 := ih _ _ _ _ _ h
      rcases List.mem_append.mp h2 with h3 | h3
      · rcases List.mem_append.mp h3 with h4 | h4
        · exact h4
        · exact absurd h4 (by simp)
      · exact absurd h3 (by simp)

lemma run_loop_raised_false_of_nil (ins : SentencePair → Bool) (mb : Option Nat)
    (bn ta tf : Nat) (tr : List Event) :
    (run_loop ins mb [] bn ta tf tr).raised = false := by
  by_cases hmax : maxReached mb bn = true <;> simp [run_loop, hmax]

/-! ## Claims -/

/-- C1: `parse_alignment_output` returns exactly one entry per input line,
in line order (entry `i` is the parse of line `i`); a whitespace-only line
yields an empty list at its position rather than being omitted; and the
well-formed line `0-1 2-3` yields the pair list `[(0,1),(2,3)]`. -/
theorem C1_parse_positional_correspondence :
    (∀ (lines : List (List Char)) (out : List (List (Nat × Nat))),
      parse_alignment_output lines = some out →
      out.length = lines.length ∧
      ∀ (i : Nat) (h1 : i < lines.length) (h2 : i < out.length),
        parse_line (lines.get ⟨i, h1⟩) = some (out.get ⟨i, h2⟩))
    ∧ (∀ line : List Char, line.all Char.isWhitespace = true →
        parse_line line = some [])
    ∧ parse_alignment_output ["0-1 2-3".toList, "  ".toList] =
        some [[(0, 1), (2, 3)], []] := by
  refine ⟨fun lines out h => ⟨parse_alignment_output_length lines out h,
    parse_alignment_output_get lines out h⟩, parse_line_of_whitespace, ?_⟩
  decide

/-- Witness for C1 at a concrete output file: two lines parse to two
entries, and line 0 parses to the entry at position 0. -/
theorem C1_parse_positional_correspondence_witness :
    ([[(0, 1), (2, 3)], []] : List (List (Nat × Nat))).length =
      (["0-1 2-3".toList, "  ".toList] : List (List Char)).length :=
  (C1_parse_positional_correspondence.1 ["0-1 2-3".toList, "  ".toList]
    [[(0, 1), (2, 3)], []] (by decide)).1

/-- C2 counterexample: the claimed bound `score ∈ [0, 1]` fails as stated.
With a forward alignment whose source indices are out of range for the
token count (`[(5,0),(6,0)]` against 1 source and 1 target token),
`calculate_alignment_score` returns `1.5`, because `coverage` counts
distinct aligned source indices without bounding them by `src_length`. -/
theorem C2_score_above_one_counterexample :
    calculate_alignment_score [(5, 0), (6, 0)] 1 1 = 3/2 ∧
      ¬ calculate_alignment_score [(5, 0), (6, 0)] 1 1 ≤ 1 := by
  have h : calculate_alignment_score [(5, 0), (6, 0)] 1 1 = 3/2 := by
    rw [calculate_alignment_score, if_neg (by simp)]
    norm_num [coverage, density_score, length_ratio, round4, List.dedup]
  exact ⟨h, by rw [h]; norm_num⟩

/-- C2 (amended): `calculate_alignment_score` returns exactly `0` when the
alignment list is empty or either token count is zero, and otherwise the
weighted sum `0.5·coverage + 0.3·density + 0.2·lengthRatio` rounded to 4
decimal places; the result is always `≥ 0`, and lies in `[0, 1]` whenever
every aligned source index is below the source token count (the claim's
unconditional upper bound fails for out-of-range indices). -/
theorem C2_score_formula_and_range :
    (∀ (a : List (Nat × Nat)) (s t : Nat), (a = [] ∨ s = 0 ∨ t = 0) →
      calculate_alignment_score a s t = 0)
    ∧ (∀ (a : List (Nat × Nat)) (s t : Nat), a ≠ [] → s ≠ 0 → t ≠ 0 →
        calculate_alignment_score a s t =
          round4 (1/2 * coverage a s + 3/10 * density_score a s +
            1/5 * length_ratio s t))
    ∧ (∀ (a : List (Nat × Nat)) (s t : Nat), 0 ≤ calculate_alignment_score a s t)
    ∧ (∀ (a : List (Nat × Nat)) (s t : Nat), (∀ q ∈ a, q.1 < s) →
        calculate_alignment_score a s t ≤ 1) := by
  refine ⟨?_, ?_, ?_, ?_⟩
  · intro a s t h
    rw [calculate_alignment_score, if_pos h]
  · intro a s t ha hs ht
    rw [calculate_alignment_score, if_neg (by tauto)]
  · intro a s t
    rw [calculate_alignment_score]
    split
    · norm_num
    · apply round4_nonneg
      have h1 := coverage_nonneg a s
      have h2 := density_score_nonneg a s
      have h3 := length_ratio_nonneg s t
      linarith
  · intro a s t hrange
    rw [calculate_alignment_score]
    split
    · norm_num
    · next hcond =>
      push_neg at hcond
      apply round4_le_one
      have h1 := coverage_le_one a s hcond.2.1 hrange
      have h2 := density_score_le_one a s
      have h3 := length_ratio_le_one s t hcond.2.1
      linarith

/-- Witness for C2 (amended) at a concrete in-range input. -/
theorem C2_score_formula_and_range_witness :
    calculate_alignment_score [(0, 0)] 1 1 ≤ 1 :=
  C2_score_formula_and_range.2.2.2 [(0, 0)] 1 1 (by decide)

/-- C3: the persisted quality label is `auto_aligned` exactly when the
computed score is at least `0.7` and `raw` exactly when it is below `0.7`,
for every sentence pair and alignment; the `0.7` threshold is the literal
constant of `store_alignments` (line 244) and no argument of the function
can alter it. -/
theorem C3_quality_threshold :
    ∀ (pair : SentencePair) (fwd bwd : List (Nat × Nat)),
      ((mk_alignment_record pair fwd bwd).quality_status = "auto_aligned".toList ↔
        7/10 ≤ (mk_alignment_record pair fwd bwd).alignment_score)
      ∧ ((mk_alignment_record pair fwd bwd).quality_status = "raw".toList ↔
        (mk_alignment_record pair fwd bwd).alignment_score < 7/10) := by
  intro pair fwd bwd
  by_cases hq : (7 : ℚ)/10 ≤ calculate_alignment_score fwd
      (pySplitWs pair.purepecha_text).length (pySplitWs pair.spanish_text).length
  · constructor
    · simp only [mk_alignment_record, if_pos hq]
      simp only [eq_self_iff_true, true_iff]
      exact hq
    · simp only [mk_alignment_record, if_pos hq]
      constructor
      · intro h; exact absurd h (by decide)
      · intro h; exact absurd hq (not_le.mpr h)
  · constructor
    · simp only [mk_alignment_record, if_neg hq]
      constructor
      · intro h; exact absurd h (by decide)
      · intro h; exact absurd h hq
    · simp only [mk_alignment_record, if_neg hq]
      simp only [eq_self_iff_true, true_iff]
      exact not_le.mp hq

/-- Witness for C3: a concrete record whose score is `0.85 ≥ 0.7` is
labelled `auto_aligned`. -/
theorem C3_quality_threshold_witness :
    (mk_alignment_record ⟨1, 2, "a".toList, "b".toList⟩ [(0, 0)] []).quality_status =
      "auto_aligned".toList := by
  apply (C3_quality_threshold ⟨1, 2, "a".toList, "b".toList⟩ [(0, 0)] []).1.mpr
  have hsrc : (pySplitWs "a".toList).length = 1 := by decide
  have htgt : (pySplitWs "b".toList).length = 1 := by decide
  show (7 : ℚ)/10 ≤ calculate_alignment_score [(0, 0)]
    (pySplitWs "a".toList).length (pySplitWs "b".toList).length
  rw [hsrc, htgt, calculate_alignment_score, if_neg (by simp)]
  norm_num [coverage, density_score, length_ratio, round4, List.dedup]

/-- C7 counterexample: the claim says a binary-not-found launch failure
does not raise, but `run_fast_align` only catches `CalledProcessError`, so
the `FileNotFoundError` propagates. -/
theorem C7_not_found_raises_counterexample :
    run_fast_align ProcOutcome.notFound = Except.error PyError.fileNotFoundError := rfl

/-- C7 (amended): a zero exit status returns success with standard output
captured; a non-zero exit status is reported as an ordinary `False` result
carrying the captured stderr text and does not raise; success is returned
exactly when the aligner exits with status zero.  A launch failure from a
missing binary, however, raises `FileNotFoundError` instead of returning a
failure result (normally pre-empted by the constructor's startup check). -/
theorem C7_exit_status_result :
    (∀ e, run_fast_align (ProcOutcome.exited 0 e) =
      Except.ok ⟨true, none⟩)
    ∧ (∀ c e, c ≠ 0 → run_fast_align (ProcOutcome.exited c e) =
        Except.ok ⟨false, some e⟩)
    ∧ (∀ (o : ProcOutcome) (r : InvokeResult), run_fast_align o = Except.ok r →
        (r.success = true ↔ ∃ e, o = ProcOutcome.exited 0 e)) := by
  refine ⟨fun e => rfl, ?_, ?_⟩
  · intro c e hc
    cases c with
    | zero => exact absurd rfl hc
    | succ c => rfl
  · intro o r h
    cases o with
    | notFound => exact absurd h (by simp [run_fast_align])
    | exited c e =>
      cases c with
      | zero =>
        simp only [run_fast_align, Except.ok.injEq] at h
        subst h
        exact ⟨fun _ => ⟨e, rfl⟩, fun _ => rfl⟩
      | succ c =>
        simp only [run_fast_align, Except.ok.injEq] at h
        subst h
        constructor
        · intro hfalse; exact absurd hfalse (by simp)
        · rintro ⟨e2, he⟩; exact absurd he (by simp)

/-- Witness for C7 (amended): a concrete non-zero exit returns an ordinary
failure result carrying the stderr text. -/
theorem C7_exit_status_result_witness :
    run_fast_align (ProcOutcome.exited 1 "err".toList) =
      Except.ok ⟨false, some "err".toList⟩ :=
  C7_exit_status_result.2.1 1 "err".toList (by decide)

/-- C10: the confidence score stored by `store_alignments` is computed
from the full parsed forward alignment before out-of-range entries are
filtered from the persisted payload; concretely, a pair whose forward
entries are all out of range for the whitespace-tokenized sentences is
persisted with an empty forward payload yet a score strictly above `0`. -/
theorem C10_score_ignores_range_filter :
    (∀ (pair : SentencePair) (fwd bwd : List (Nat × Nat)),
      (mk_alignment_record pair fwd bwd).alignment_score =
        calculate_alignment_score fwd (pySplitWs pair.purepecha_text).length
          (pySplitWs pair.spanish_text).length)
    ∧ (mk_alignment_record ⟨1, 2, "a".toList, "b".toList⟩
        [(5, 7)] []).word_alignments.forward = []
    ∧ 0 < (mk_alignment_record ⟨1, 2, "a".toList, "b".toList⟩
        [(5, 7)] []).alignment_score := by
  refine ⟨fun pair fwd bwd => rfl, by decide, ?_⟩
  have hsrc : (pySplitWs "a".toList).length = 1 := by decide
  have htgt : (pySplitWs "b".toList).length = 1 := by decide
  show (0 : ℚ) < calculate_alignment_score [(5, 7)]
    (pySplitWs "a".toList).length (pySplitWs "b".toList).length
  rw [hsrc, htgt, calculate_alignment_score, if_neg (by simp)]
  norm_num [coverage, density_score, length_ratio, round4, List.dedup]

/-- C4: when either directional invocation of a non-empty batch fails
(returns a `False` result), the orchestrator creates zero
`AlignmentRecord`s for that batch (the event trace is unchanged),
increases the run's cumulative failed counter by the batch size, and
proceeds to the next batch: the loop continues on the remaining batches
with all other state untouched. -/
theorem C4_invocation_failure_skips_batch :
    ∀ (ins : SentencePair → Bool) (mb : Option Nat) (b : BatchInput)
      (rest : List BatchInput) (bn ta tf : Nat) (tr : List Event),
      maxReached mb bn = false → b.pairs ≠ [] →
      ((∃ e, run_fast_align b.fwdProc = Except.ok ⟨false, e⟩) ∨
        (run_fast_align b.fwdProc = Except.ok ⟨true, none⟩ ∧
          ∃ e, run_fast_align b.bwdProc = Except.ok ⟨false, e⟩)) →
      run_loop ins mb (b :: rest) bn ta tf tr =
        run_loop ins mb rest (bn + 1) ta (tf + b.pairs.length) tr := by
  intro ins mb b rest bn ta tf tr hmax hp hfail
  rcases hfail with ⟨e, hf⟩ | ⟨hf, e, hb⟩
  · exact run_loop_fwd_fail ins mb b rest bn ta tf tr hmax hp e hf
  · exact run_loop_bwd_fail ins mb b rest bn ta tf tr hmax hp hf e hb

/-- Witness for C4: a one-pair batch whose forward invocation exits
non-zero is skipped with the failed counter increased by 1. -/
theorem C4_invocation_failure_skips_batch_witness :
    run_loop (fun _ => true) none
        [⟨[pair0], ProcOutcome.exited 1 "boom".toList, [],
          ProcOutcome.exited 0 [], []⟩] 0 0 0 [] =
      run_loop (fun _ => true) none [] 1 0 (0 + 1) [] :=
  C4_invocation_failure_skips_batch (fun _ => true) none
    ⟨[pair0], ProcOutcome.exited 1 "boom".toList, [], ProcOutcome.exited 0 [], []⟩
    [] 0 0 0 [] rfl (by decide) (Or.inl ⟨some "boom".toList, rfl⟩)

/-- C5 counterexample: the claim says the Run Tracker's progress update is
invoked after every batch iteration, but in `env_c5` one batch is iterated
and counted failed (`total_failed = 1`) while the trace contains no
progress update at all — the `continue` on invocation failure skips
`tracker.update_progress`. -/
theorem C5_no_progress_update_on_failed_batch_counterexample :
    (run_pipeline env_c5).total_failed = 1 ∧
      progressCount (run_pipeline env_c5).trace = 0 := by
  decide

/-- C5 (amended): the progress update with the new cumulative totals is
invoked after every batch whose two invocations succeed and whose outputs
parse, before the next batch begins; a batch failing either invocation is
skipped without a progress update (its failures are only reported by the
next successful batch's update, as the counterexample shows). -/
theorem C5_progress_after_successful_batch :
    ∀ (ins : SentencePair → Bool) (mb : Option Nat) (b : BatchInput)
      (rest : List BatchInput) (bn ta tf : Nat) (tr : List Event)
      (fa ba : List (List (Nat × Nat)))
      (recs : List AlignmentRecord) (s f : Nat),
      maxReached mb bn = false → b.pairs ≠ [] →
      run_fast_align b.fwdProc = Except.ok ⟨true, none⟩ →
      run_fast_align b.bwdProc = Except.ok ⟨true, none⟩ →
      parse_alignment_output b.fwdLines = some fa →
      parse_alignment_output b.bwdLines = some ba →
      store_alignments ins b.pairs fa ba = (recs, s, f) →
      run_loop ins mb (b :: rest) bn ta tf tr =
        run_loop ins mb rest (bn + 1) (ta + s) (tf + f)
          (tr ++ recs.map Event.insert ++
            [Event.progress (ta + s + (tf + f)) (ta + s) (tf + f)]) := by
  intro ins mb b rest bn ta tf tr fa ba recs s f hmax hp hf hb hfa hba hstore
  rw [run_loop_success ins mb b rest bn ta tf tr fa ba hmax hp hf hb hfa hba, hstore]

/-- Witness for C5 (amended): a concrete successful one-pair batch updates
progress with totals `(1, 1, 0)` right after its record insertion. -/
theorem C5_progress_after_successful_batch_witness :
    run_loop (fun _ => true) none
        [⟨[pair0], ProcOutcome.exited 0 [], ["".toList],
          ProcOutcome.exited 0 [], ["".toList]⟩] 0 0 0 [] =
      run_loop (fun _ => true) none [] 1 (0 + 1) (0 + 0)
        ([] ++ [mk_alignment_record pair0 [] []].map Event.insert ++
          [Event.progress (0 + 1 + (0 + 0)) (0 + 1) (0 + 0)]) :=
  C5_progress_after_successful_batch (fun _ => true) none
    ⟨[pair0], ProcOutcome.exited 0 [], ["".toList], ProcOutcome.exited 0 [], ["".toList]⟩
    [] 0 0 0 [] [[]] [[]] [mk_alignment_record pair0 [] []] 1 0
    rfl (by decide) rfl rfl (by decide) (by decide) rfl

/-- C6 counterexample: the claim says a malformed alignment token is
equivalent to a batch-fatal condition (pairs counted failed, run continues
to the next batch), but in `env_c6` the malformed token `x` in batch 1's
forward output makes the uncaught `ValueError` abort the whole run: no
pair is counted failed, batch 2 is never reached, and `complete_run` never
executes. -/
theorem C6_malformed_token_counterexample :
    (run_pipeline env_c6).raised = true ∧
      (run_pipeline env_c6).total_failed = 0 ∧
      (run_pipeline env_c6).batch_num = 1 ∧
      progressCount (run_pipeline env_c6).trace = 0 := by
  decide

/-- C6 (amended): a malformed token is a hard parse failure of that
directional invocation — malformed lines are never silently skipped, any
bad line fails the whole parse — but the failure is run-fatal, not
batch-fatal: the uncaught exception aborts `run_pipeline` with the batch's
pairs not counted as failed and the remaining batches unprocessed. -/
theorem C6_malformed_token_aborts_run :
    (∀ (lines : List (List Char)) (line : List Char), line ∈ lines →
      parse_line line = none → parse_alignment_output lines = none)
    ∧ (∀ (ins : SentencePair → Bool) (mb : Option Nat) (b : BatchInput)
        (rest : List BatchInput) (bn ta tf : Nat) (tr : List Event),
        maxReached mb bn = false → b.pairs ≠ [] →
        run_fast_align b.fwdProc = Except.ok ⟨true, none⟩ →
        run_fast_align b.bwdProc = Except.ok ⟨true, none⟩ →
        parse_alignment_output b.fwdLines = none →
        run_loop ins mb (b :: rest) bn ta tf tr = ⟨bn + 1, ta, tf, tr, true⟩)
    ∧ (∀ (ins : SentencePair → Bool) (mb : Option Nat) (b : BatchInput)
        (rest : List BatchInput) (bn ta tf : Nat) (tr : List Event)
        (fa : List (List (Nat × Nat))),
        maxReached mb bn = false → b.pairs ≠ [] →
        run_fast_align b.fwdProc = Except.ok ⟨true, none⟩ →
        run_fast_align b.bwdProc = Except.ok ⟨true, none⟩ →
        parse_alignment_output b.fwdLines = some fa →
        parse_alignment_output b.bwdLines = none →
        run_loop ins mb (b :: rest) bn ta tf tr = ⟨bn + 1, ta, tf, tr, true⟩) := by
  refine ⟨parse_alignment_output_of_bad_line, ?_, ?_⟩
  · intro ins mb b rest bn ta tf tr hmax hp hf hb hfa
    exact run_loop_parse_fwd_fail ins mb b rest bn ta tf tr hmax hp hf hb hfa
  · intro ins mb b rest bn ta tf tr fa hmax hp hf hb hfa hba
    exact run_loop_parse_bwd_fail ins mb b rest bn ta tf tr fa hmax hp hf hb hfa hba

/-- Witness for C6 (amended): the malformed forward output of `env_c6`'s
first batch aborts the loop with no change to counters or trace. -/
theorem C6_malformed_token_aborts_run_witness :
    run_loop (fun _ => true) none
        [⟨[pair0], ProcOutcome.exited 0 [], ["x".toList],
          ProcOutcome.exited 0 [], ["".toList]⟩] 0 0 0 [] =
      ⟨0 + 1, 0, 0, [], true⟩ :=
  C6_malformed_token_aborts_run.2.1 (fun _ => true) none
    ⟨[pair0], ProcOutcome.exited 0 [], ["x".toList], ProcOutcome.exited 0 [], ["".toList]⟩
    [] 0 0 0 [] rfl (by decide) rfl rfl (by decide)

/-- C8: every run that exits its batch loop (its `raised` flag is false)
is finalized with `complete_run(status='completed')` as the last event; no
trace ever contains a completion with any other status, so batch-level
errors never yield a terminal `failed`; and a run whose first fetch
returns zero pairs completes immediately with zero counts. -/
theorem C8_run_completed :
    (∀ env : PipelineEnv, (run_pipeline env).raised = false →
      (run_pipeline env).trace.getLast? = some (Event.complete "completed".toList))
    ∧ (∀ (env : PipelineEnv) (s : List Char),
        Event.complete s ∈ (run_pipeline env).trace → s = "completed".toList)
    ∧ (∀ (ins : SentencePair → Bool) (mb : Option Nat),
        run_pipeline ⟨[], ins, mb⟩ =
          ⟨1, 0, 0, [Event.complete "completed".toList], false⟩) := by
  refine ⟨?_, ?_, ?_⟩
  · intro env hr
    rw [run_pipeline] at hr ⊢
    by_cases h : (run_loop env.insertOk env.max_batches env.batches 0 0 0 []).raised = true
    · rw [if_pos h] at hr
      rw [hr] at h
      exact absurd h (by simp)
    · rw [Bool.not_eq_true] at h
      rw [if_neg (by rw [h]; simp)]
      simp only [List.getLast?_append_cons, List.getLast?_singleton]
  · intro env s hmem
    rw [run_pipeline] at hmem
    by_cases h : (run_loop env.insertOk env.max_batches env.batches 0 0 0 []).raised = true
    · rw [if_pos h] at hmem
      exact absurd (run_loop_complete_mem env.insertOk env.max_batches
        env.batches 0 0 0 [] s hmem) (by simp)
    · rw [Bool.not_eq_true] at h
      rw [if_neg (by rw [h]; simp)] at hmem
      rcases List.mem_append.mp hmem with h2 | h2
      · exact absurd (run_loop_complete_mem env.insertOk env.max_batches
          env.batches 0 0 0 [] s h2) (by simp)
      · simpa using h2
  · intro ins mb
    rw [run_pipeline]
    simp [run_loop, maxReached_zero mb]

/-- Witness for C8: a run over an exhausted source exits the loop at once
and its final event is a completion with status `completed`. -/
theorem C8_run_completed_witness :
    (run_pipeline ⟨[], fun _ => true, none⟩).trace.getLast? =
      some (Event.complete "completed".toList) :=
  C8_run_completed.1 ⟨[], fun _ => true, none⟩ rfl

/-- C9 counterexample: the claim that inserted records never exceed the
tracker-recorded `items_succeeded` at every point of the run fails in
`env_c9`: right after the batch's record insertion and before the batch's
progress update, one record exists while the last recorded
`items_succeeded` is still 0. -/
theorem C9_insert_before_update_counterexample :
    ¬ trackerMonotone (run_pipeline env_c9).trace :=
  fun h => absurd (h 1) (by decide)

/-- C9 (amended): every tracker progress update records `items_succeeded`
equal to the number of records inserted up to that event (and
`items_processed = items_succeeded + items_failed`), and at the end of the
run the total number of inserted records equals the run's cumulative
succeeded counter; the inserted count exceeds the last recorded value only
transiently, between a batch's insertions and that batch's update. -/
theorem C9_records_match_recorded_succeeded :
    ∀ env : PipelineEnv,
      progressConsistent (run_pipeline env).trace ∧
        insertCount (run_pipeline env).trace = (run_pipeline env).total_aligned := by
  intro env
  have hinv := run_loop_trace_invariant env.insertOk env.max_batches
    env.batches 0 0 0 [] rfl rfl
  rw [progressConsistent, run_pipeline]
  by_cases h : (run_loop env.insertOk env.max_batches env.batches 0 0 0 []).raised = true
  · rw [if_pos h]
    exact ⟨hinv.2, hinv.1⟩
  · rw [Bool.not_eq_true] at h
    rw [if_neg (by rw [h]; simp)]
    constructor
    · simp only [progOKAux_append, hinv.2, Bool.true_and]
      simp [progOKAux]
    · simp only [insertCount_append, hinv.1]
      simp [insertCount]

end FastAlign
